import Mathlib

/-!
Shallow embedding of the UEFI safety layer (DianaNites/uefi): the status /
result model, the boot-services wrappers from `uefi/src/table.rs`, the Scope
lifecycle from `nuefi/src/proto.rs`, the pool-allocator bridge from
`uefi/src/alloc.rs`, the entry point from `uefi/src/lib.rs`, and the Device
Path codec. Firmware itself is an external collaborator: every firmware call
is modelled as an explicit response function passed in as a parameter, and
the theorems quantify over it.
-/

namespace Uefi

/-- Modelled from the spec: the `error` module (crate::error) is not among the
provided sources. Per the spec, a firmware status is one machine word; high
bit set = error, zero = success (`EfiStatus::is_success` tests zero). -/
structure EfiStatus where
  val : Nat
deriving DecidableEq, Repr

/-- Modelled from the spec: zero = success. -/
def EfiStatus.is_success (s : EfiStatus) : Bool := s.val == 0

/-- The machine-word high bit marking a status as an error (64-bit target). -/
def ERROR_BIT : Nat := 2 ^ 63

def EfiStatus.SUCCESS : EfiStatus := ⟨0⟩

def EfiStatus.INVALID_PARAMETER : EfiStatus := ⟨ERROR_BIT + 2⟩

def EfiStatus.UNSUPPORTED : EfiStatus := ⟨ERROR_BIT + 3⟩

def EfiStatus.DEVICE_ERROR : EfiStatus := ⟨ERROR_BIT + 7⟩

def EfiStatus.NOT_FOUND : EfiStatus := ⟨ERROR_BIT + 14⟩

def EfiStatus.SECURITY_VIOLATION : EfiStatus := ⟨ERROR_BIT + 26⟩

/-- Modelled from the spec: the error type produced by this layer always
retains the raw status value (`UefiError::new(status)` / `.status()`). -/
structure UefiError where
  status : EfiStatus
deriving DecidableEq, Repr

/-- The crate's `Result<T>` = `core::result::Result<T, UefiError>`. -/
abbrev UResult (α : Type) := Except UefiError α

/-- Modelled from the spec: the `impl From<EfiStatus> for Result<()>` used as
`.into()` throughout `table.rs`: success maps to `Ok(())`, anything else to
`Err(UefiError::new(status))`. -/
def EfiStatus.toResult (s : EfiStatus) : UResult Unit :=
  if s.is_success then .ok () else .error ⟨s⟩

/-- An `EfiHandle(*mut c_void)`: an opaque pointer value, 0 is null. -/
structure EfiHandle where
  ptr : Nat
deriving DecidableEq, Repr

/-- The null handle, `EfiHandle(null_mut())`. -/
def nullHandle : EfiHandle := ⟨0⟩

/-- Firmware response to an OpenProtocol call: the returned status and the
interface pointer written through the `&mut out` argument. -/
structure FwOpenResult where
  status : EfiStatus
  out : Nat
deriving DecidableEq, Repr

/-- A `Scope` from `nuefi/src/proto.rs`: stores the protocol interface
(here: the raw pointer `from_raw` was given) and the `(handle, agent,
controller)` triple passed to `Scope::new`. -/
structure Scope where
  proto : Nat
  handle : EfiHandle
  agent : EfiHandle
  controller : Option EfiHandle
deriving DecidableEq, Repr

/-- Model of `BootServices::open_protocol` from `uefi/src/table.rs` (lines 129-163).
The firmware call receives `(handle, guid, &mut out, agent,
controller.unwrap_or(null), 0x20)`; `fw handle agent ctl` models its
response. Success yields `Ok(Some(Scope::new(from_raw(out), handle, agent,
controller)))`; `UNSUPPORTED` yields `Ok(None)`; anything else is
`Err(UefiError::new(ret))`. -/
def open_protocol (fw : EfiHandle → EfiHandle → EfiHandle → FwOpenResult)
    (handle agent : EfiHandle) (controller : Option EfiHandle) :
    UResult (Option Scope) :=
  let r := fw handle agent (controller.getD nullHandle)
  if r.status.is_success then
    .ok (some ⟨r.out, handle, agent, controller⟩)
  else if r.status = EfiStatus.UNSUPPORTED then
    .ok none
  else
    .error ⟨r.status⟩

/-- C1: `open_protocol(handle, agent, controller)` maps firmware UNSUPPORTED
to `Ok(None)`, firmware success to `Ok(Some(scope))` with the scope binding
exactly the `(handle, agent, controller)` triple passed in, and every other
non-success status to an error carrying that status. -/
theorem open_protocol_status_mapping
    (fw : EfiHandle → EfiHandle → EfiHandle → FwOpenResult)
    (h a : EfiHandle) (c : Option EfiHandle) :
    ((fw h a (c.getD nullHandle)).status = EfiStatus.UNSUPPORTED →
      open_protocol fw h a c = .ok none) ∧
    ((fw h a (c.getD nullHandle)).status.is_success →
      open_protocol fw h a c =
        .ok (some ⟨(fw h a (c.getD nullHandle)).out, h, a, c⟩)) ∧
    (¬ (fw h a (c.getD nullHandle)).status.is_success →
      (fw h a (c.getD nullHandle)).status ≠ EfiStatus.UNSUPPORTED →
      open_protocol fw h a c = .error ⟨(fw h a (c.getD nullHandle)).status⟩) := by
  refine ⟨?_, ?_, ?_⟩
  · intro hu
    have hns : EfiStatus.UNSUPPORTED.is_success = false := by decide
    simp only [open_protocol]
    rw [hu, hns]
    simp
  · intro hs
    simp only [open_protocol]
    rw [hs]
    simp
  · intro hns hnu
    simp only [open_protocol]
    simp [hns, hnu]

/-- Witness for C1: all three branches exercised at concrete inputs. -/
theorem open_protocol_status_mapping_witness :
    open_protocol (fun _ _ _ => ⟨EfiStatus.UNSUPPORTED, 0⟩) ⟨1⟩ ⟨2⟩ none = .ok none ∧
    open_protocol (fun _ _ _ => ⟨EfiStatus.SUCCESS, 7⟩) ⟨1⟩ ⟨2⟩ (some ⟨3⟩) =
      .ok (some ⟨7, ⟨1⟩, ⟨2⟩, some ⟨3⟩⟩) ∧
    open_protocol (fun _ _ _ => ⟨EfiStatus.DEVICE_ERROR, 0⟩) ⟨1⟩ ⟨2⟩ none =
      .error ⟨EfiStatus.DEVICE_ERROR⟩ :=
  ⟨(open_protocol_status_mapping (fun _ _ _ => ⟨EfiStatus.UNSUPPORTED, 0⟩) ⟨1⟩ ⟨2⟩ none).1 rfl,
   (open_protocol_status_mapping (fun _ _ _ => ⟨EfiStatus.SUCCESS, 7⟩) ⟨1⟩ ⟨2⟩ (some ⟨3⟩)).2.1
     (by decide),
   (open_protocol_status_mapping (fun _ _ _ => ⟨EfiStatus.DEVICE_ERROR, 0⟩) ⟨1⟩ ⟨2⟩ none).2.2
     (by decide) (by decide)⟩

/-- The fields of `RawSystemTable` that this layer reads through
`SystemTable::table()`: only the boot-services pointer matters for the phase
logic; 0 is null (firmware nulls it at ExitBootServices). -/
structure RawSystemTable where
  boot_services : Nat
deriving DecidableEq, Repr

/-- Model of `SystemTable::<Internal>::as_boot` from `uefi/src/table.rs` (332-340):
returns `Some(SystemTable::<Boot>::new(self.table))` — a typed wrapper of the
same pointer — exactly when the live table's `boot_services` pointer is
non-null, else `None`. The pointer is read afresh from the table at every
call. -/
def as_boot (t : RawSystemTable) : Option RawSystemTable :=
  if ¬ t.boot_services = 0 then some t else none

/-- The process-wide globals of `uefi/src/lib.rs`: `TABLE` (none = null
pointer, some t = points at a table currently holding `t`) and `HANDLE`. -/
structure GlobalState where
  table : Option RawSystemTable
  handle : Nat
deriving DecidableEq, Repr

/-- Model of `get_boot_table` from `uefi/src/lib.rs` (79-89): loads `TABLE` (Acquire);
null gives `None`, otherwise wraps it as `SystemTable<Internal>` and defers
to `as_boot`. -/
def get_boot_table (g : GlobalState) : Option RawSystemTable :=
  match g.table with
  | none => none
  | some t => as_boot t

/-- C4: `as_boot` returns a Boot table exactly when the live boot-services
pointer is non-null at the moment of the call; along any trace `f` of table
states in which the pointer is null from step `k` on and non-null before,
every call from step `k` on returns nothing and every earlier call returned
a Boot table. -/
theorem as_boot_phase_trace (f : Nat → RawSystemTable) (k : Nat)
    (hnull : ∀ i, k ≤ i → (f i).boot_services = 0)
    (hlive : ∀ i, i < k → (f i).boot_services ≠ 0) :
    (∀ t : RawSystemTable,
      (as_boot t = some t ↔ t.boot_services ≠ 0) ∧
      (as_boot t = none ↔ t.boot_services = 0)) ∧
    (∀ i, k ≤ i → as_boot (f i) = none) ∧
    (∀ i, i < k → as_boot (f i) = some (f i)) := by
  refine ⟨?_, ?_, ?_⟩
  · intro t
    constructor
    · constructor
      · intro hs hz
        simp [as_boot, hz] at hs
      · intro hnz
        simp [as_boot, hnz]
    · constructor
      · intro hn
        by_contra hnz
        simp [as_boot, hnz] at hn
      · intro hz
        simp [as_boot, hz]
  · intro i hi
    simp [as_boot, hnull i hi]
  · intro i hi
    simp [as_boot, hlive i hi]

/-- Witness for C4: a trace that is live for two steps and then exits boot
services forever. -/
theorem as_boot_phase_trace_witness :
    as_boot ⟨5⟩ = some ⟨5⟩ ∧ as_boot ⟨0⟩ = none ∧
    (∀ i, 2 ≤ i → as_boot (if i < 2 then (⟨5⟩ : RawSystemTable) else ⟨0⟩) = none) ∧
    (∀ i, i < 2 →
      as_boot (if i < 2 then (⟨5⟩ : RawSystemTable) else ⟨0⟩) =
        some (if i < 2 then (⟨5⟩ : RawSystemTable) else ⟨0⟩)) := by
  have h := as_boot_phase_trace
    (fun i => if i < 2 then (⟨5⟩ : RawSystemTable) else ⟨0⟩) 2
    (by
      intro i hi
      simp only []
      rw [if_neg (by omega)])
    (by
      intro i hi
      simp only []
      rw [if_pos hi]
      decide)
  exact ⟨(h.1 ⟨5⟩).1.mpr (by decide), (h.1 ⟨0⟩).2.mpr rfl, h.2.1, h.2.2⟩

/-- Firmware responses to the protocol close call. `close h a ctl` is the
status CloseProtocol returns for that argument triple (the controller slot
receives the null handle when the scope held no controller). -/
structure FwProto where
  close : EfiHandle → EfiHandle → EfiHandle → EfiStatus

/-- Model of `BootServices::close_protocol` from `uefi/src/table.rs` (169-186): calls
firmware CloseProtocol with `(handle, guid, agent,
controller.unwrap_or(EfiHandle(null_mut())))` and converts the status via
`.into()`. -/
def close_protocol (fw : FwProto) (handle agent : EfiHandle)
    (controller : Option EfiHandle) : UResult Unit :=
  (fw.close handle agent (controller.getD nullHandle)).toResult

/-- What the Scope drop glue writes to the log. -/
inductive DropLog where
  | closeError (e : UefiError)
  | noBootServices
deriving DecidableEq, Repr

/-- Observable effect of dropping a Scope: the argument triple passed to
`close_protocol` (if the call was made at all) and the log output. There is
no error or panic channel: drop is total. -/
structure DropEffect where
  closed : Option (EfiHandle × EfiHandle × Option EfiHandle)
  log : List DropLog
deriving DecidableEq, Repr

/-- Model of `impl Drop for Scope` from `nuefi/src/proto.rs` (141-152): if
`get_boot_table()` yields a table, call `close_protocol(handle, agent,
controller)` and log any error; otherwise log that the scope was dropped
after boot services. -/
def Scope.dropRun (g : GlobalState) (fw : FwProto) (s : Scope) : DropEffect :=
  match get_boot_table g with
  | some _ =>
    match close_protocol fw s.handle s.agent s.controller with
    | .ok _ => ⟨some (s.handle, s.agent, s.controller), []⟩
    | .error e => ⟨some (s.handle, s.agent, s.controller), [.closeError e]⟩
  | none => ⟨none, [.noBootServices]⟩

/-- Model of `Scope::close` from `nuefi/src/proto.rs` (line 121): `pub fn close(self)
\x7b\x7d` — the body is empty; consuming `self` runs the drop glue, and the
caller receives unit. -/
def Scope.close (g : GlobalState) (fw : FwProto) (s : Scope) :
    Unit × DropEffect :=
  ((), Scope.dropRun g fw s)

/-- Model of `Scope::leak` from `nuefi/src/proto.rs` (127-129): `core::mem::forget`
suppresses the drop glue entirely; no close call and no log. -/
def Scope.leak (_g : GlobalState) (_fw : FwProto) (_s : Scope) :
    Unit × DropEffect :=
  ((), ⟨none, []⟩)

/-- C2 counterexample: the close call fails with DEVICE_ERROR under `fwBad`
and succeeds under `fwOk`, yet `Scope::close` hands the caller the very same
value (unit) in both runs — the close result is not propagated, so the
caller cannot observe a close failure, contradicting the claim. -/
theorem scope_close_not_propagated :
    close_protocol ⟨fun _ _ _ => EfiStatus.DEVICE_ERROR⟩ ⟨1⟩ ⟨2⟩ none =
      .error ⟨EfiStatus.DEVICE_ERROR⟩ ∧
    close_protocol ⟨fun _ _ _ => EfiStatus.SUCCESS⟩ ⟨1⟩ ⟨2⟩ none = .ok () ∧
    (Scope.close ⟨some ⟨9⟩, 4⟩ ⟨fun _ _ _ => EfiStatus.DEVICE_ERROR⟩ ⟨7, ⟨1⟩, ⟨2⟩, none⟩).1 =
      (Scope.close ⟨some ⟨9⟩, 4⟩ ⟨fun _ _ _ => EfiStatus.SUCCESS⟩ ⟨7, ⟨1⟩, ⟨2⟩, none⟩).1 ∧
    (Scope.close ⟨some ⟨9⟩, 4⟩ ⟨fun _ _ _ => EfiStatus.DEVICE_ERROR⟩ ⟨7, ⟨1⟩, ⟨2⟩, none⟩).2.log =
      [.closeError ⟨EfiStatus.DEVICE_ERROR⟩] := by
  refine ⟨rfl, rfl, rfl, by decide⟩

/-- C2 amended: `Scope::close` consumes the Scope and triggers the close
call immediately through the drop glue, with the original triple; the close
result is not returned — a failure is only logged. -/
theorem scope_close_amended (g : GlobalState) (fw : FwProto) (s : Scope)
    (t : RawSystemTable) (hb : get_boot_table g = some t) :
    (Scope.close g fw s).2.closed = some (s.handle, s.agent, s.controller) ∧
    (Scope.close g fw s).1 = () ∧
    ((fw.close s.handle s.agent (s.controller.getD nullHandle)).is_success →
      (Scope.close g fw s).2.log = []) ∧
    (¬ (fw.close s.handle s.agent (s.controller.getD nullHandle)).is_success →
      (Scope.close g fw s).2.log =
        [.closeError ⟨fw.close s.handle s.agent (s.controller.getD nullHandle)⟩]) := by
  refine ⟨?_, rfl, ?_, ?_⟩
  · simp only [Scope.close, Scope.dropRun, hb]
    simp [close_protocol, EfiStatus.toResult]
    split <;> rfl
  · intro hs
    simp [Scope.close, Scope.dropRun, hb, close_protocol, EfiStatus.toResult, hs]
  · intro hns
    simp [Scope.close, Scope.dropRun, hb, close_protocol, EfiStatus.toResult, hns]

/-- Witness for the amended C2 at a concrete failing close. -/
theorem scope_close_amended_witness :
    (Scope.close ⟨some ⟨9⟩, 4⟩ ⟨fun _ _ _ => EfiStatus.NOT_FOUND⟩
        ⟨7, ⟨1⟩, ⟨2⟩, some ⟨3⟩⟩).2.closed = some (⟨1⟩, ⟨2⟩, some ⟨3⟩) ∧
    (Scope.close ⟨some ⟨9⟩, 4⟩ ⟨fun _ _ _ => EfiStatus.NOT_FOUND⟩
        ⟨7, ⟨1⟩, ⟨2⟩, some ⟨3⟩⟩).2.log = [.closeError ⟨EfiStatus.NOT_FOUND⟩] := by
  have h := scope_close_amended ⟨some ⟨9⟩, 4⟩ ⟨fun _ _ _ => EfiStatus.NOT_FOUND⟩
    ⟨7, ⟨1⟩, ⟨2⟩, some ⟨3⟩⟩ ⟨9⟩ (by decide)
  exact ⟨h.1, h.2.2.2 (by decide)⟩

/-- C3: every destruction path other than `leak` runs the drop glue: when a
boot table is reachable it attempts the close with the original (handle,
agent, controller) triple and on failure only appends a log entry (no error
channel, no panic — `Scope.dropRun` is a total function into `DropEffect`);
when no boot table is reachable it makes no firmware call and only logs that
no close is possible. -/
theorem scope_drop_best_effort (g : GlobalState) (fw : FwProto) (s : Scope) :
    (∀ t, get_boot_table g = some t →
      (Scope.dropRun g fw s).closed = some (s.handle, s.agent, s.controller) ∧
      ((fw.close s.handle s.agent (s.controller.getD nullHandle)).is_success →
        (Scope.dropRun g fw s).log = []) ∧
      (¬ (fw.close s.handle s.agent (s.controller.getD nullHandle)).is_success →
        (Scope.dropRun g fw s).log =
          [.closeError ⟨fw.close s.handle s.agent (s.controller.getD nullHandle)⟩])) ∧
    (get_boot_table g = none →
      Scope.dropRun g fw s = ⟨none, [.noBootServices]⟩) := by
  constructor
  · intro t hb
    refine ⟨?_, ?_, ?_⟩
    · simp only [Scope.dropRun, hb]
      simp [close_protocol, EfiStatus.toResult]
      split <;> rfl
    · intro hs
      simp [Scope.dropRun, hb, close_protocol, EfiStatus.toResult, hs]
    · intro hns
      simp [Scope.dropRun, hb, close_protocol, EfiStatus.toResult, hns]
  · intro hb
    simp [Scope.dropRun, hb]

/-- Witness for C3: a failing close is logged when boot services are up, and
a drop after exit-boot-services logs that no close is possible. -/
theorem scope_drop_best_effort_witness :
    (Scope.dropRun ⟨some ⟨9⟩, 4⟩ ⟨fun _ _ _ => EfiStatus.DEVICE_ERROR⟩
        ⟨7, ⟨1⟩, ⟨2⟩, none⟩).closed = some (⟨1⟩, ⟨2⟩, none) ∧
    (Scope.dropRun ⟨some ⟨9⟩, 4⟩ ⟨fun _ _ _ => EfiStatus.DEVICE_ERROR⟩
        ⟨7, ⟨1⟩, ⟨2⟩, none⟩).log = [.closeError ⟨EfiStatus.DEVICE_ERROR⟩] ∧
    Scope.dropRun ⟨some ⟨0⟩, 4⟩ ⟨fun _ _ _ => EfiStatus.SUCCESS⟩
        ⟨7, ⟨1⟩, ⟨2⟩, none⟩ = ⟨none, [.noBootServices]⟩ := by
  have h1 := (scope_drop_best_effort ⟨some ⟨9⟩, 4⟩
    ⟨fun _ _ _ => EfiStatus.DEVICE_ERROR⟩ ⟨7, ⟨1⟩, ⟨2⟩, none⟩).1 ⟨9⟩ (by decide)
  have h2 := (scope_drop_best_effort ⟨some ⟨0⟩, 4⟩
    ⟨fun _ _ _ => EfiStatus.SUCCESS⟩ ⟨7, ⟨1⟩, ⟨2⟩, none⟩).2 (by decide)
  exact ⟨h1.1, h1.2.2 (by decide), h2⟩

/-- Largest value of the firmware's integer width (`usize`, 64-bit target). -/
def USIZE_MAX : Nat := 2 ^ 64 - 1

/-- Rust `core::time::Duration`: whole seconds (a `u64`) plus subsecond
nanoseconds below one billion. -/
structure Duration where
  secs : Nat
  nanos : Nat
  secs_lt : secs < 2 ^ 64
  nanos_lt : nanos < 1000000000

/-- Rust `Duration::as_micros`: `secs * 1_000_000 + nanos / 1_000` as `u128`
(never overflows, so plain arithmetic). -/
def Duration.as_micros (d : Duration) : Nat := d.secs * 1000000 + d.nanos / 1000

/-- Rust `Duration::as_secs`. -/
def Duration.as_secs (d : Duration) : Nat := d.secs

/-- Rust `Duration::default()`: zero. -/
def Duration.zero : Duration := ⟨0, 0, by norm_num, by norm_num⟩

/-- Model of `BootServices::stall` from `uefi/src/table.rs` (34-45):
`dur.as_micros().try_into()` fails — giving `Err(INVALID_PARAMETER)` — iff
the microsecond count exceeds `usize`; otherwise that exact count is passed
to the firmware stall (response `fw`), whose status is converted by
`.into()`. -/
def stall (fw : Nat → EfiStatus) (dur : Duration) : UResult Unit :=
  if dur.as_micros ≤ USIZE_MAX then (fw dur.as_micros).toResult
  else (EfiStatus.INVALID_PARAMETER).toResult

/-- Model of `BootServices::set_watchdog` from `uefi/src/table.rs` (59-72):
`timeout.unwrap_or_default().as_secs().try_into()` fails — giving
`Err(INVALID_PARAMETER)` — iff the second count exceeds `usize`; otherwise
that exact count is passed to the firmware watchdog call (with code 0x10000
and no data), whose status is converted by `.into()`. -/
def set_watchdog (fw : Nat → EfiStatus) (timeout : Option Duration) : UResult Unit :=
  if (timeout.getD Duration.zero).as_secs ≤ USIZE_MAX then
    (fw (timeout.getD Duration.zero).as_secs).toResult
  else (EfiStatus.INVALID_PARAMETER).toResult

/-- C5: `stall` rejects with INVALID_PARAMETER exactly when the microsecond
count of the duration does not fit in `usize`, and otherwise hands the
firmware the exact, unmodified count; `set_watchdog` likewise for the second
count (which, being a `u64`, always fits a 64-bit `usize`, so its reject
branch is vacuous but present). Neither value is ever wrapped, clamped or
truncated: the firmware argument is the count itself. -/
theorem stall_watchdog_no_truncation (fwStall fwWd : Nat → EfiStatus)
    (dur : Duration) (timeout : Option Duration) :
    (¬ dur.as_micros ≤ USIZE_MAX →
      stall fwStall dur = .error ⟨EfiStatus.INVALID_PARAMETER⟩) ∧
    (dur.as_micros ≤ USIZE_MAX →
      stall fwStall dur = (fwStall dur.as_micros).toResult) ∧
    ((timeout.getD Duration.zero).as_secs ≤ USIZE_MAX ∧
      set_watchdog fwWd timeout =
        (fwWd (timeout.getD Duration.zero).as_secs).toResult) := by
  refine ⟨?_, ?_, ?_, ?_⟩
  · intro hbig
    simp only [stall, if_neg hbig]
    rfl
  · intro hfit
    simp [stall, hfit]
  · have := (timeout.getD Duration.zero).secs_lt
    simp only [Duration.as_secs, USIZE_MAX]
    omega
  · have hfit : (timeout.getD Duration.zero).as_secs ≤ USIZE_MAX := by
      have := (timeout.getD Duration.zero).secs_lt
      simp only [Duration.as_secs, USIZE_MAX]
      omega
    simp [set_watchdog, hfit]

/-- A duration of 2^64 - 1 seconds: legal as a Rust `Duration`, but its
microsecond count exceeds `usize`. -/
def hugeDuration : Duration := ⟨2 ^ 64 - 1, 0, by norm_num, by norm_num⟩

/-- Witness for C5: the huge duration is rejected by `stall` with
INVALID_PARAMETER; a 3-microsecond stall passes exactly 3 to firmware; a
watchdog timeout of 2^64 - 1 seconds still fits and is passed exactly. -/
theorem stall_watchdog_no_truncation_witness :
    stall (fun _ => EfiStatus.SUCCESS) hugeDuration =
      .error ⟨EfiStatus.INVALID_PARAMETER⟩ ∧
    stall (fun n => if n = 3 then EfiStatus.SUCCESS else EfiStatus.DEVICE_ERROR)
      ⟨0, 3000, by norm_num, by norm_num⟩ = .ok () ∧
    set_watchdog (fun n => if n = 2 ^ 64 - 1 then EfiStatus.SUCCESS else EfiStatus.DEVICE_ERROR)
      (some hugeDuration) = .ok () := by
  have h1 := (stall_watchdog_no_truncation (fun _ => EfiStatus.SUCCESS)
    (fun _ => EfiStatus.SUCCESS) hugeDuration none).1 (by
      simp only [hugeDuration, Duration.as_micros, USIZE_MAX]
      norm_num)
  have h2 := (stall_watchdog_no_truncation
    (fun n => if n = 3 then EfiStatus.SUCCESS else EfiStatus.DEVICE_ERROR)
    (fun _ => EfiStatus.SUCCESS)
    ⟨0, 3000, by norm_num, by norm_num⟩ none).2.1 (by
      simp only [Duration.as_micros, USIZE_MAX]
      norm_num)
  have h3 := (stall_watchdog_no_truncation (fun _ => EfiStatus.SUCCESS)
    (fun n => if n = 2 ^ 64 - 1 then EfiStatus.SUCCESS else EfiStatus.DEVICE_ERROR)
    hugeDuration (some hugeDuration)).2.2.2
  refine ⟨h1, ?_, ?_⟩
  · rw [h2]
    have : (⟨0, 3000, by norm_num, by norm_num⟩ : Duration).as_micros = 3 := by
      simp [Duration.as_micros]
    rw [this]
    simp [EfiStatus.toResult]
    decide
  · rw [h3]
    have : ((some hugeDuration).getD Duration.zero).as_secs = 2 ^ 64 - 1 := by
      simp [hugeDuration, Duration.as_secs]
    rw [this]
    simp [EfiStatus.toResult]
    decide

/-- Firmware response to a LoadImage call: the status and the handle it
wrote through the `&mut out` argument (initialised to null). -/
structure FwLoadResult where
  status : EfiStatus
  out : EfiHandle
deriving DecidableEq, Repr

/-- Outcome of a call that can also panic (Rust `assert_ne!`). -/
inductive Outcome (α : Type) where
  | ok (a : α)
  | err (e : UefiError)
  | panicked
deriving DecidableEq, Repr

/-- Model of `BootServices::load_image` from `uefi/src/table.rs` (193-215):
the firmware call receives `(false, parent, null, src.as_ptr(), src.len(),
&mut out)`; `fw parent src` models its response. On success or
SECURITY_VIOLATION the code asserts `out != null` and returns `Ok(out)`;
every other status becomes `Err(UefiError::new(ret))`. -/
def load_image (fw : EfiHandle → List Nat → FwLoadResult)
    (parent : EfiHandle) (src : List Nat) : Outcome EfiHandle :=
  let r := fw parent src
  if r.status.is_success ∨ r.status = EfiStatus.SECURITY_VIOLATION then
    if r.out = nullHandle then .panicked else .ok r.out
  else
    .err ⟨r.status⟩

/-- C6 counterexample: a SECURITY_VIOLATION load and a fully successful load
of the same image return the identical value `Ok(handle)` — the result
carries no flag, so the caller cannot distinguish the two from the return
value, contradicting the claim's second half. -/
theorem load_image_no_flag :
    load_image (fun _ _ => ⟨EfiStatus.SECURITY_VIOLATION, ⟨5⟩⟩) ⟨1⟩ [0, 1] =
      load_image (fun _ _ => ⟨EfiStatus.SUCCESS, ⟨5⟩⟩) ⟨1⟩ [0, 1] ∧
    load_image (fun _ _ => ⟨EfiStatus.SECURITY_VIOLATION, ⟨5⟩⟩) ⟨1⟩ [0, 1] =
      .ok ⟨5⟩ := by
  constructor <;> decide

/-- C6 amended: `load_image` treats SECURITY_VIOLATION as a successful load
(`Ok` carrying the handle, assuming the firmware wrote a non-null handle),
identical in shape to a fully successful load — no flag distinguishes them;
every status that is neither success nor SECURITY_VIOLATION is an error
carrying that status. The caller must instead handle the violation case at
`start_image`. -/
theorem load_image_security_violation_ok
    (fw : EfiHandle → List Nat → FwLoadResult) (parent : EfiHandle)
    (src : List Nat) :
    ((fw parent src).status = EfiStatus.SECURITY_VIOLATION →
      (fw parent src).out ≠ nullHandle →
      load_image fw parent src = .ok (fw parent src).out) ∧
    ((fw parent src).status.is_success →
      (fw parent src).out ≠ nullHandle →
      load_image fw parent src = .ok (fw parent src).out) ∧
    (¬ (fw parent src).status.is_success →
      (fw parent src).status ≠ EfiStatus.SECURITY_VIOLATION →
      load_image fw parent src = .err ⟨(fw parent src).status⟩) := by
  refine ⟨?_, ?_, ?_⟩
  · intro hv hout
    simp [load_image, hv, hout]
  · intro hs hout
    simp [load_image, hs, hout]
  · intro hns hnv
    simp [load_image, hns, hnv]

/-- Witness for the amended C6 at concrete firmware responses. -/
theorem load_image_security_violation_ok_witness :
    load_image (fun _ _ => ⟨EfiStatus.SECURITY_VIOLATION, ⟨6⟩⟩) ⟨1⟩ [] = .ok ⟨6⟩ ∧
    load_image (fun _ _ => ⟨EfiStatus.SUCCESS, ⟨6⟩⟩) ⟨1⟩ [] = .ok ⟨6⟩ ∧
    load_image (fun _ _ => ⟨EfiStatus.NOT_FOUND, ⟨6⟩⟩) ⟨1⟩ [] =
      .err ⟨EfiStatus.NOT_FOUND⟩ :=
  ⟨(load_image_security_violation_ok (fun _ _ => ⟨EfiStatus.SECURITY_VIOLATION, ⟨6⟩⟩)
      ⟨1⟩ []).1 rfl (by decide),
   (load_image_security_violation_ok (fun _ _ => ⟨EfiStatus.SUCCESS, ⟨6⟩⟩)
      ⟨1⟩ []).2.1 (by decide) (by decide),
   (load_image_security_violation_ok (fun _ _ => ⟨EfiStatus.NOT_FOUND, ⟨6⟩⟩)
      ⟨1⟩ []).2.2 (by decide) (by decide)⟩

/-- A UEFI memory type (`crate::mem::MemoryType`). -/
structure MemoryType where
  val : Nat
deriving DecidableEq, Repr

/-- Loader-data pool memory, `MemoryType::LOADER_DATA = 2`. -/
def MemoryType.LOADER_DATA : MemoryType := ⟨2⟩

/-- Firmware responses for the pool primitives: `allocate ty size` returns
(status, out pointer); `free ptr` returns a status. -/
structure FwPool where
  allocate : MemoryType → Nat → EfiStatus × Nat
  free : Nat → EfiStatus

/-- Model of `BootServices::allocate_pool` from `uefi/src/table.rs` (75-84):
success returns the pointer firmware wrote, anything else is an error
carrying the status. -/
def allocate_pool (fw : FwPool) (ty : MemoryType) (size : Nat) : UResult Nat :=
  if (fw.allocate ty size).1.is_success then .ok (fw.allocate ty size).2
  else .error ⟨(fw.allocate ty size).1⟩

/-- Observable effect of `UefiAlloc::alloc`: the returned pointer (0 = null,
the allocation-failure indication) and the pool request made, if any. -/
structure AllocEffect where
  ret : Nat
  request : Option (MemoryType × Nat)
deriving DecidableEq, Repr

/-- Model of `UefiAlloc::alloc` from `uefi/src/alloc.rs` (120-136): align
above 8 returns null before anything else; then, if `get_boot_table()`
yields a table, `allocate_pool(LOADER_DATA, size)` is requested and an error
is flattened to null by `unwrap_or(null_mut())`; with no reachable boot
table the result is null with no firmware call. -/
def UefiAlloc.alloc (g : GlobalState) (fw : FwPool) (size align : Nat) :
    AllocEffect :=
  if align > 8 then ⟨0, none⟩
  else
    match get_boot_table g with
    | some _ =>
      match allocate_pool fw MemoryType.LOADER_DATA size with
      | .ok p => ⟨p, some (MemoryType.LOADER_DATA, size)⟩
      | .error _ => ⟨0, some (MemoryType.LOADER_DATA, size)⟩
    | none => ⟨0, none⟩

/-- C7: `alloc` returns null with no firmware request whenever align exceeds
8, whatever the global state; returns null with no firmware request whenever
no boot table is reachable; and otherwise requests exactly `size` bytes of
loader-data pool memory. -/
theorem uefi_alloc_contract (g : GlobalState) (fw : FwPool) (size align : Nat) :
    (align > 8 → UefiAlloc.alloc g fw size align = ⟨0, none⟩) ∧
    (get_boot_table g = none → UefiAlloc.alloc g fw size align = ⟨0, none⟩) ∧
    (align ≤ 8 → ∀ t, get_boot_table g = some t →
      (UefiAlloc.alloc g fw size align).request =
        some (MemoryType.LOADER_DATA, size)) := by
  refine ⟨?_, ?_, ?_⟩
  · intro hbig
    simp [UefiAlloc.alloc, hbig]
  · intro hnone
    unfold UefiAlloc.alloc
    rw [hnone]
    split <;> rfl
  · intro hsmall t hsome
    have hnbig : ¬ align > 8 := by omega
    unfold UefiAlloc.alloc
    rw [if_neg hnbig, hsome]
    cases hA : allocate_pool fw MemoryType.LOADER_DATA size <;> simp [hA]

/-- Witness for C7: align 16 fails with no request even with a live table;
align 8 with no reachable table fails with no request; align 8 with a live
table requests exactly (LOADER_DATA, 16). -/
theorem uefi_alloc_contract_witness :
    UefiAlloc.alloc ⟨some ⟨9⟩, 4⟩ ⟨fun _ _ => (EfiStatus.SUCCESS, 64), fun _ => EfiStatus.SUCCESS⟩
      16 16 = ⟨0, none⟩ ∧
    UefiAlloc.alloc ⟨some ⟨0⟩, 4⟩ ⟨fun _ _ => (EfiStatus.SUCCESS, 64), fun _ => EfiStatus.SUCCESS⟩
      16 8 = ⟨0, none⟩ ∧
    (UefiAlloc.alloc ⟨some ⟨9⟩, 4⟩ ⟨fun _ _ => (EfiStatus.SUCCESS, 64), fun _ => EfiStatus.SUCCESS⟩
      16 8).request = some (MemoryType.LOADER_DATA, 16) :=
  ⟨(uefi_alloc_contract ⟨some ⟨9⟩, 4⟩ ⟨fun _ _ => (EfiStatus.SUCCESS, 64), fun _ => EfiStatus.SUCCESS⟩
      16 16).1 (by norm_num),
   (uefi_alloc_contract ⟨some ⟨0⟩, 4⟩ ⟨fun _ _ => (EfiStatus.SUCCESS, 64), fun _ => EfiStatus.SUCCESS⟩
      16 8).2.1 (by decide),
   (uefi_alloc_contract ⟨some ⟨9⟩, 4⟩ ⟨fun _ _ => (EfiStatus.SUCCESS, 64), fun _ => EfiStatus.SUCCESS⟩
      16 8).2.2 (by norm_num) ⟨9⟩ (by decide)⟩

/-- Observable effect of `UefiAlloc::dealloc`: the pointer passed to the
pool-free primitive (if the call was made) and whether a failure was logged.
There is no error or panic channel: dealloc is total. -/
structure DeallocEffect where
  freed : Option Nat
  logged : Bool
deriving DecidableEq, Repr

/-- Model of `UefiAlloc::dealloc` from `uefi/src/alloc.rs` (138-151): return
immediately on a null pointer; otherwise, if `get_boot_table()` yields a
table, call `free_pool(ptr)` and log any error (the status is converted by
`.into()`, so failure means non-success). -/
def UefiAlloc.dealloc (g : GlobalState) (fw : FwPool) (ptr : Nat) :
    DeallocEffect :=
  if ptr = 0 then ⟨none, false⟩
  else
    match get_boot_table g with
    | some _ =>
      if (fw.free ptr).is_success then ⟨some ptr, false⟩ else ⟨some ptr, true⟩
    | none => ⟨none, false⟩

/-- C8: `dealloc` is a no-op on a null pointer; on a non-null pointer with a
reachable boot table it frees exactly that pointer via the pool-free
primitive, and a failure of that call is logged and never escalated — the
result type `DeallocEffect` has no error or panic channel, so every run
returns normally. -/
theorem uefi_dealloc_contract (g : GlobalState) (fw : FwPool) (ptr : Nat) :
    (ptr = 0 → UefiAlloc.dealloc g fw ptr = ⟨none, false⟩) ∧
    (ptr ≠ 0 → ∀ t, get_boot_table g = some t →
      (UefiAlloc.dealloc g fw ptr).freed = some ptr ∧
      ((UefiAlloc.dealloc g fw ptr).logged = true ↔
        ¬ (fw.free ptr).is_success)) := by
  constructor
  · intro hz
    simp [UefiAlloc.dealloc, hz]
  · intro hnz t hsome
    unfold UefiAlloc.dealloc
    rw [if_neg hnz, hsome]
    constructor
    · by_cases hf : (fw.free ptr).is_success = true <;> simp [hf]
    · constructor
      · intro hlog hs
        simp [hs] at hlog
      · intro hns
        simp [hns]

/-- Witness for C8: null pointer is a no-op; a failing free of pointer 64 is
logged. -/
theorem uefi_dealloc_contract_witness :
    UefiAlloc.dealloc ⟨some ⟨9⟩, 4⟩ ⟨fun _ _ => (EfiStatus.SUCCESS, 64), fun _ => EfiStatus.DEVICE_ERROR⟩
      0 = ⟨none, false⟩ ∧
    (UefiAlloc.dealloc ⟨some ⟨9⟩, 4⟩ ⟨fun _ _ => (EfiStatus.SUCCESS, 64), fun _ => EfiStatus.DEVICE_ERROR⟩
      64).freed = some 64 ∧
    (UefiAlloc.dealloc ⟨some ⟨9⟩, 4⟩ ⟨fun _ _ => (EfiStatus.SUCCESS, 64), fun _ => EfiStatus.DEVICE_ERROR⟩
      64).logged = true := by
  have h := (uefi_dealloc_contract ⟨some ⟨9⟩, 4⟩
    ⟨fun _ _ => (EfiStatus.SUCCESS, 64), fun _ => EfiStatus.DEVICE_ERROR⟩ 64).2
    (by norm_num) ⟨9⟩ (by decide)
  refine ⟨(uefi_dealloc_contract ⟨some ⟨9⟩, 4⟩
    ⟨fun _ _ => (EfiStatus.SUCCESS, 64), fun _ => EfiStatus.DEVICE_ERROR⟩ 0).1 rfl,
    h.1, h.2.mpr (by decide)⟩

/-- Observable effect of one `efi_main` invocation: the returned status, the
values stored to the `HANDLE` and `TABLE` globals (none = no store), whether
the logger was installed, and whether the user `main` was called. -/
structure EntryEffect where
  status : EfiStatus
  handle_written : Option Nat
  table_written : Option Nat
  logger_installed : Bool
  main_called : Bool
deriving DecidableEq, Repr

/-- Model of `efi_main` from `uefi/src/lib.rs` (99-132). `image` and
`sysTable` are the incoming pointer values (0 = null). `validate` models
`RawSystemTable::validate` (defined in the raw-table module, not among the
provided sources) and `mainRet` the user `main`'s return value; both are
external to this function. Null image or table returns INVALID_PARAMETER
before anything else; a validation error is returned next; otherwise the
globals are stored, the logger installed, `main` called, and its result
mapped to a status. -/
def efi_main (validate : Nat → UResult Unit) (mainRet : UResult Unit)
    (image sysTable : Nat) : EntryEffect :=
  if image = 0 ∨ sysTable = 0 then
    ⟨EfiStatus.INVALID_PARAMETER, none, none, false, false⟩
  else
    match validate sysTable with
    | .error e => ⟨e.status, none, none, false, false⟩
    | .ok _ =>
      match mainRet with
      | .ok _ => ⟨EfiStatus.SUCCESS, some image, some sysTable, true, true⟩
      | .error e => ⟨e.status, some image, some sysTable, true, true⟩

/-- C10: with a null image handle or a null system-table pointer, `efi_main`
returns INVALID_PARAMETER immediately — whatever the validator or the user
main would do — with no store to HANDLE or TABLE, no logger installation,
and no call to the user main. -/
theorem efi_main_null_guard (validate : Nat → UResult Unit)
    (mainRet : UResult Unit) (image sysTable : Nat)
    (hnull : image = 0 ∨ sysTable = 0) :
    efi_main validate mainRet image sysTable =
      ⟨EfiStatus.INVALID_PARAMETER, none, none, false, false⟩ := by
  simp [efi_main, hnull]

/-- Witness for C10: null image with a live table pointer, under a validator
that would accept and a main that would succeed. -/
theorem efi_main_null_guard_witness :
    efi_main (fun _ => .ok ()) (.ok ()) 0 5 =
      ⟨EfiStatus.INVALID_PARAMETER, none, none, false, false⟩ :=
  efi_main_null_guard (fun _ => .ok ()) (.ok ()) 0 5 (Or.inl rfl)

/-- Modelled from the spec: Device Path parse failures are a typed
MalformedBinary error (the parse loop itself is not among the provided
sources; only the `DevicePathHdr` layout in `core/src/proto/device_path.rs`
is). -/
inductive DevPathError where
  | malformedBinary
deriving DecidableEq, Repr

/-- Modelled from the spec: the node length declared by a header — the
2-byte little-endian field at offsets 2 and 3, counting header plus
payload (`u16::from_le_bytes(self.len)` on `DevicePathHdr`). -/
def declaredLen (b : List Nat) : Nat := b.getD 2 0 + 256 * b.getD 3 0

/-- Modelled from the spec: the Device Path parse loop, with explicit fuel
(each step consumes a node of at least 4 bytes, so `b.length` steps always
suffice). At the current offset: fail if fewer than 4 bytes remain, if the
declared length is below 4, or if it would read past the buffer end; a node
with type 0x7F and subtype 0xFF is the end-of-whole-path terminator and must
close the buffer exactly; any other node is emitted as its byte span and the
loop advances by the declared length. -/
def parseNodesF : Nat → List Nat → Except DevPathError (List (List Nat))
  | 0, _ => .error .malformedBinary
  | fuel + 1, b =>
    if b.length < 4 then .error .malformedBinary
    else if declaredLen b < 4 then .error .malformedBinary
    else if b.length < declaredLen b then .error .malformedBinary
    else if b.getD 0 0 = 0x7F ∧ b.getD 1 0 = 0xFF then
      if b.length = declaredLen b then .ok [b.take (declaredLen b)]
      else .error .malformedBinary
    else
      match parseNodesF fuel (b.drop (declaredLen b)) with
      | .ok ns => .ok (b.take (declaredLen b) :: ns)
      | .error e => .error e

/-- Modelled from the spec: `parse(bytes)` — the node sequence of a whole
path buffer, each node a byte span. -/
def parse (b : List Nat) : Except DevPathError (List (List Nat)) :=
  parseNodesF b.length b

/-- Modelled from the spec: serialization concatenates the node byte spans
back into one buffer. -/
def serialize (ns : List (List Nat)) : List Nat := ns.flatten

/-- Modelled from the spec: a well-formed whole-path buffer — a sequence of
nodes, each with a 4-byte header whose little-endian declared length is at
least 4 and within bounds, ending with the end-of-whole-path terminator
(type 0x7F, subtype 0xFF) that closes the buffer exactly. -/
inductive WellFormedPath : List Nat → Prop where
  | terminator (b : List Nat) (h0 : b.getD 0 0 = 0x7F) (h1 : b.getD 1 0 = 0xFF)
      (h4 : 4 ≤ b.length) (hlen : declaredLen b = b.length) :
      WellFormedPath b
  | node (b : List Nat) (h4 : 4 ≤ b.length) (hl : 4 ≤ declaredLen b)
      (hbl : declaredLen b ≤ b.length)
      (hnt : ¬ (b.getD 0 0 = 0x7F ∧ b.getD 1 0 = 0xFF))
      (rest : WellFormedPath (b.drop (declaredLen b))) :
      WellFormedPath b

/-- Joining the parsed spans reproduces the buffer, for any fuel. -/
theorem parseNodesF_join (fuel : Nat) :
    ∀ (b : List Nat) (ns : List (List Nat)),
      parseNodesF fuel b = .ok ns → ns.flatten = b := by
  induction fuel with
  | zero =>
    intro b ns h
    simp [parseNodesF] at h
  | succ f ih =>
    intro b ns h
    simp only [parseNodesF] at h
    by_cases h4 : b.length < 4
    · rw [if_pos h4] at h
      simp at h
    rw [if_neg h4] at h
    by_cases hl : declaredLen b < 4
    · rw [if_pos hl] at h
      simp at h
    rw [if_neg hl] at h
    by_cases hbl : b.length < declaredLen b
    · rw [if_pos hbl] at h
      simp at h
    rw [if_neg hbl] at h
    by_cases hterm : b.getD 0 0 = 0x7F ∧ b.getD 1 0 = 0xFF
    · rw [if_pos hterm] at h
      by_cases hend : b.length = declaredLen b
      · rw [if_pos hend] at h
        obtain rfl : ns = [b.take (declaredLen b)] := (Except.ok.inj h).symm
        show b.take (declaredLen b) ++ [] = b
        rw [List.append_nil, ← hend, List.take_length]
      · rw [if_neg hend] at h
        simp at h
    · rw [if_neg hterm] at h
      cases hrec : parseNodesF f (b.drop (declaredLen b)) with
      | ok tail =>
        rw [hrec] at h
        obtain rfl : ns = b.take (declaredLen b) :: tail := (Except.ok.inj h).symm
        have htail := ih (b.drop (declaredLen b)) tail hrec
        show b.take (declaredLen b) ++ tail.flatten = b
        rw [htail]
        exact List.take_append_drop (declaredLen b) b
      | error e =>
        rw [hrec] at h
        simp at h

/-- Every well-formed buffer parses successfully, for any sufficient fuel. -/
theorem parseNodesF_wf_ok (b : List Nat) (hwf : WellFormedPath b) :
    ∀ fuel, b.length ≤ fuel → ∃ ns, parseNodesF fuel b = .ok ns := by
  induction hwf with
  | terminator b h0 h1 h4 hlen =>
    intro fuel hfuel
    obtain ⟨f, rfl⟩ : ∃ f, fuel = f + 1 := ⟨fuel - 1, by omega⟩
    refine ⟨[b.take (declaredLen b)], ?_⟩
    simp only [parseNodesF]
    rw [if_neg (by omega), if_neg (by omega), if_neg (by omega),
      if_pos ⟨h0, h1⟩, if_pos hlen.symm]
  | node b h4 hl hbl hnt rest ih =>
    intro fuel hfuel
    obtain ⟨f, rfl⟩ : ∃ f, fuel = f + 1 := ⟨fuel - 1, by omega⟩
    have hdrop : (b.drop (declaredLen b)).length ≤ f := by
      rw [List.length_drop]
      omega
    obtain ⟨tail, htail⟩ := ih f hdrop
    refine ⟨b.take (declaredLen b) :: tail, ?_⟩
    simp only [parseNodesF]
    rw [if_neg (by omega), if_neg (by omega), if_neg (by omega), if_neg hnt,
      htail]

/-- C9: for every well-formed Device Path buffer `b` (nodes with 4-byte
headers, little-endian declared lengths at least 4 and in bounds, ending
with the end-of-whole-path terminator), `parse` succeeds, and serializing
any successful parse of `b` reproduces `b` byte for byte. -/
theorem parse_serialize_roundtrip (b : List Nat) :
    (WellFormedPath b → ∃ ns, parse b = .ok ns) ∧
    (∀ ns, parse b = .ok ns → serialize ns = b) := by
  constructor
  · intro hwf
    exact parseNodesF_wf_ok b hwf b.length le_rfl
  · intro ns h
    exact parseNodesF_join b.length b ns h

/-- Witness for C9: the empty path (a bare terminator) and a two-node path
both parse and serialize back to themselves. -/
theorem parse_serialize_roundtrip_witness :
    parse [0x7F, 0xFF, 4, 0] = .ok [[0x7F, 0xFF, 4, 0]] ∧
    serialize [[0x7F, 0xFF, 4, 0]] = [0x7F, 0xFF, 4, 0] ∧
    parse [1, 1, 6, 0, 9, 9, 0x7F, 0xFF, 4, 0] =
      .ok [[1, 1, 6, 0, 9, 9], [0x7F, 0xFF, 4, 0]] ∧
    serialize [[1, 1, 6, 0, 9, 9], [0x7F, 0xFF, 4, 0]] =
      [1, 1, 6, 0, 9, 9, 0x7F, 0xFF, 4, 0] :=
  ⟨rfl,
   (parse_serialize_roundtrip [0x7F, 0xFF, 4, 0]).2 [[0x7F, 0xFF, 4, 0]] rfl,
   rfl,
   (parse_serialize_roundtrip [1, 1, 6, 0, 9, 9, 0x7F, 0xFF, 4, 0]).2
     [[1, 1, 6, 0, 9, 9], [0x7F, 0xFF, 4, 0]] rfl⟩

end Uefi
